import Mathlib

/-!
Verification of the Geospatial Interaction & Hierarchical Aggregation Engine
(src/etl/tract_site_interactions.py, src/etl/aggregations.py,
src/etl/geofence_etl.py) against its specification.

The embedding is shallow: pandas / geopandas data frames become lists of
records, the geometry engine (shapely buffering and intersection tests)
becomes an abstract boolean predicate passed as a parameter, Python floats
on the radius path become rationals, and Python strings become Lean strings
manipulated through their character lists so that everything evaluates by
kernel reduction.
-/

namespace Voltera

/-! ### String helpers modelling Python string operations -/

/-- Model of Python `s[:n]`: the first `n` characters of `s`. -/
def strTake (s : String) (n : Nat) : String := String.mk (s.data.take n)

/-- Model of Python `str.zfill(w)`: left-pad with the character 0 up to width
`w`, keeping a leading sign character in front of the padding. -/
def zfill (w : Nat) (s : String) : String :=
  if w ≤ s.length then s
  else
    match s.data with
    | [] => String.mk (List.replicate w '0')
    | c :: rest =>
      if c = '+' ∨ c = '-' then
        String.mk (c :: (List.replicate (w - s.length) '0' ++ rest))
      else
        String.mk (List.replicate (w - s.length) '0' ++ (c :: rest))

/-- ASCII lower-casing of one character (the filenames and tokens handled by
the pipeline are ASCII, so this models Python `str.lower`). -/
def lowerChar (c : Char) : Char :=
  if 'A' ≤ c ∧ c ≤ 'Z' then Char.ofNat (c.toNat + 32) else c

/-- Model of Python `str.lower()` (ASCII). -/
def strLower (s : String) : String := String.mk (s.data.map lowerChar)

/-- Model of Python `s.endswith(t)`. -/
def strEndsWith (s t : String) : Bool := t.data.isSuffixOf s.data

/-- Strict lexicographic (code-point) order on character lists; this is the
lexical order on archive entry names referred to by the specification. -/
def lexLT : List Char → List Char → Bool
  | [], [] => false
  | [], _ :: _ => true
  | _ :: _, [] => false
  | a :: as, b :: bs =>
    if a.toNat < b.toNat then true
    else if b.toNat < a.toNat then false
    else lexLT as bs

/-! ### Keyed deduplication, modelling pandas drop_duplicates (keep=first) -/

/-- Keep, in order, the first row of each key; later rows whose key was
already seen are dropped.  This is the behaviour of pandas
drop_duplicates(subset=key) with its default keep=first. -/
def dedupBy {α κ : Type} [DecidableEq κ] (key : α → κ) : List α → List α
  | [] => []
  | a :: l => a :: (dedupBy key l).filter (fun b => key b ≠ key a)

/-! ### tract_site_interactions.py -/

/-- Miles to meters conversion constant (MI_TO_M = 1609.34 in the source). -/
def MI_TO_M : ℚ := 160934 / 100

/-- Python `round` on the radius value: round to the nearest integer with
ties going to the even integer (banker's rounding). -/
def pyRound (q : ℚ) : Int :=
  if q - (⌊q⌋ : ℚ) < 1 / 2 then ⌊q⌋
  else if 1 / 2 < q - (⌊q⌋ : ℚ) then ⌊q⌋ + 1
  else if 2 ∣ ⌊q⌋ then ⌊q⌋ else ⌊q⌋ + 1

/-- One row of the projected tract layer: its GEOID and the geom_type string
of its geometry ("Polygon" or "MultiPolygon").  The geometry itself stays
abstract: every use of it goes through the intersection predicate. -/
structure TractRec where
  geoid : String
  geomType : String
deriving DecidableEq

/-- One row of the projected site layer (only Index_ID is consumed by the
pair computation; the point geometry stays abstract). -/
structure SiteRow where
  siteId : String
deriving DecidableEq

/-- A row of the pair table before the distinct-site count is merged on:
Cover_Range, Geoid, Index_ID, Geometry. -/
structure PreRow where
  coverRange : Int
  geoid : String
  siteId : String
  geometryKind : String
deriving DecidableEq

/-- A row of the final pair table: Cover_Range, Geoid, Index_ID, Geometry,
Count_Tract_Interact_Site_Range. -/
structure IntRow where
  coverRange : Int
  geoid : String
  siteId : String
  geometryKind : String
  countTract : Nat
deriving DecidableEq

/-- The inner spatial join of gpd.sjoin(tracts, buffered sites,
predicate=intersects): tract-major enumeration of the intersecting
(tract, site) combinations.  `I t s m` abstracts the geometry test
"tract t intersects the buffer of radius m meters around site s". -/
def sjoin_tracts_buffers (I : TractRec → SiteRow → ℚ → Bool)
    (tracts : List TractRec) (sites : List SiteRow) (m : ℚ) :
    List (TractRec × SiteRow) :=
  tracts.flatMap (fun t => (sites.filter (fun s => I t s m)).map (fun s => (t, s)))

/-- The deduplicated pair table of one radius pass with its Tableau-style
fields: unique (GEOID, Index_ID) pairs carrying round(miles) as Cover_Range
and the tract geometry kind. -/
def pairRows (I : TractRec → SiteRow → ℚ → Bool) (tracts : List TractRec)
    (sites : List SiteRow) (miles : ℚ) : List PreRow :=
  (dedupBy (fun ts : TractRec × SiteRow => (ts.1.geoid, ts.2.siteId))
      (sjoin_tracts_buffers I tracts sites (MI_TO_M * miles))).map (fun ts =>
    { coverRange := pyRound miles, geoid := ts.1.geoid,
      siteId := ts.2.siteId, geometryKind := ts.1.geomType })

/-- COUNTD(Index_ID) of the rows sharing a (Cover_Range, Geoid) key. -/
def countFor (rows : List PreRow) (c : Int) (g : String) : Nat :=
  (((rows.filter (fun r2 => r2.coverRange = c ∧ r2.geoid = g)).map
      PreRow.siteId).dedup).length

/-- The merge of the per-(Cover_Range, Geoid) count back onto one pair row. -/
def attachCount (rows : List PreRow) (r : PreRow) : IntRow :=
  { coverRange := r.coverRange, geoid := r.geoid, siteId := r.siteId,
    geometryKind := r.geometryKind,
    countTract := countFor rows r.coverRange r.geoid }

/-- Embedding of intersect_pairs_with_count (tract_site_interactions.py):
buffer the sites by MI_TO_M * miles, join tracts against the buffers,
deduplicate (GEOID, Index_ID), attach round(miles) as Cover_Range and the
tract geometry kind, then merge on the count of distinct Index_ID per
(Cover_Range, Geoid). -/
def intersect_pairs_with_count (I : TractRec → SiteRow → ℚ → Bool)
    (tracts : List TractRec) (sites : List SiteRow) (miles : ℚ) : List IntRow :=
  (pairRows I tracts sites miles).map
    (attachCount (pairRows I tracts sites miles))

/-- The configured radius passes, in miles: radii = [0.0005, 1, 2, 3, 5, 25,
75, 100] in the source (0.0005 = 1/2000 is the epsilon standing in for the
0-mile tier). -/
def radii : List ℚ := [1 / 2000, 1, 2, 3, 5, 25, 75, 100]

/-- Sort key of the final sort_values(["Cover_Range", "Geoid", "Index_ID"]). -/
def rowLE (a b : IntRow) : Bool :=
  if a.coverRange ≠ b.coverRange then a.coverRange ≤ b.coverRange
  else if a.geoid ≠ b.geoid then lexLT a.geoid.data b.geoid.data
  else lexLT a.siteId.data b.siteId.data || a.siteId = b.siteId

/-- Embedding of the radius loop of run_tract_site_interactions: run every
radius pass, warn (no failure) on an empty pass, concatenate, and fail
exactly when the combined table is empty. -/
def run_tract_site_interactions (I : TractRec → SiteRow → ℚ → Bool)
    (tracts : List TractRec) (sites : List SiteRow) :
    Except String (List IntRow) :=
  let pairs_all := radii.map (fun r => intersect_pairs_with_count I tracts sites r)
  if pairs_all.isEmpty then
    Except.error "No tract-site pairs were generated."
  else
    let tract_site_int := pairs_all.flatten
    if tract_site_int.length = 0 then
      Except.error "No tract-site pairs were generated (empty output)."
    else
      Except.ok (tract_site_int.mergeSort rowLE)

/-! ### aggregations.py -/

/-- One row of the tract-site interactions table as read by the aggregation
step (Cover_Range numeric, Geoid and Index_ID as strings). -/
structure InterRow where
  coverRange : Int
  geoid : String
  siteId : String
deriving DecidableEq

/-- A (region ID, site ID) pair: the working shape shared by the tract,
county and MSA aggregation paths. -/
structure RegionPair where
  region : String
  siteId : String
deriving DecidableEq

/-- Step 1 common to the three aggregation builders: filter the interactions
to the buffer radius, zero-pad the tract GEOID to 11 characters, and
deduplicate the (Tract_GeoID, Index_ID) pairs. -/
def pairsForBuffer (buffer : Int) (inter : List InterRow) : List RegionPair :=
  dedupBy (fun p : RegionPair => (p.region, p.siteId))
    ((inter.filter (fun r => r.coverRange = buffer)).map
      (fun r => { region := zfill 11 r.geoid, siteId := r.siteId }))

/-- County derivation plus dedup of _build_county_agg_for_buffer:
County_GeoID = Tract_GeoID[:5], then unique (County_GeoID, Index_ID). -/
def countyPairs (buffer : Int) (inter : List InterRow) : List RegionPair :=
  dedupBy (fun p : RegionPair => (p.region, p.siteId))
    ((pairsForBuffer buffer inter).map
      (fun p => { region := strTake p.region 5, siteId := p.siteId }))

/-- County key used on the MSA path: Tract_GeoID[:5] re-padded with
zfill(5) as in _build_msa_agg_for_buffer. -/
def msaCounty (region : String) : String := zfill 5 (strTake region 5)

/-- One row of the County_GeoID to MSA_Name lookup built by _build_msa_map. -/
structure MsaMapRow where
  county : String
  msa : String
deriving DecidableEq

/-- MSA pair derivation of _build_msa_agg_for_buffer: left-merge the pairs
with the county-to-MSA map and drop the rows with no MSA (together these
keep exactly the matched combinations), then unique (MSA_Name, Index_ID). -/
def msaPairs (buffer : Int) (inter : List InterRow) (msaMap : List MsaMapRow) :
    List RegionPair :=
  dedupBy (fun p : RegionPair => (p.region, p.siteId))
    ((pairsForBuffer buffer inter).flatMap (fun p =>
      (msaMap.filter (fun m => m.county = msaCounty p.region)).map
        (fun m => { region := m.msa, siteId := p.siteId })))

/-- One row of the MasterGeocodeMap sheet: CLEAN_County Geoid and the
(possibly missing) Metropolitan Division Code. -/
structure GeocodeRow where
  county : String
  msa : Option String
deriving DecidableEq

/-- Embedding of _build_msa_map: keep the rows with a Metropolitan Division
Code, zero-pad the county GEOID to 5 characters, deduplicate
(County_GeoID, MSA_Name). -/
def _build_msa_map (geocode : List GeocodeRow) : List MsaMapRow :=
  dedupBy (fun m : MsaMapRow => (m.county, m.msa))
    (geocode.filterMap (fun g =>
      g.msa.map (fun ms => { county := zfill 5 g.county, msa := ms })))

/-- One row of the cleaned sites table as consumed by the aggregation step:
Index_ID with the Site-Type, Customer Segment, Interested Party columns
(missing values as none) and the numeric-coerced #_Stalls_Filled. -/
structure SiteRec where
  id : String
  siteType : Option String
  segment : Option String
  party : Option String
  stalls : Option ℚ
deriving DecidableEq

/-- The many-to-one merge on Index_ID: find the site metadata row of an ID. -/
def siteLookup (sites : List SiteRec) (i : String) : Option SiteRec :=
  sites.find? (fun s => s.id = i)

/-- A grouping key of the aggregation: region ID, Site-Type, Customer
Segment, Interested Party (groupby with dropna=False, so missing category
values group together as none). -/
structure AggKey where
  region : String
  siteType : Option String
  segment : Option String
  party : Option String
deriving DecidableEq

/-- The grouping key of one (region, site) pair after the metadata merge:
an unmatched site ID gets all-missing category values, as a left merge
produces. -/
def keyOfPair (sites : List SiteRec) (p : RegionPair) : AggKey :=
  match siteLookup sites p.siteId with
  | some s => { region := p.region, siteType := s.siteType,
                segment := s.segment, party := s.party }
  | none => { region := p.region, siteType := none, segment := none, party := none }

/-- Stall-capacity contribution of one pair: fillna(0) on the matched
metadata, and an unmatched row contributes 0 to the skipna sum. -/
def stallsOfPair (sites : List SiteRec) (p : RegionPair) : ℚ :=
  match siteLookup sites p.siteId with
  | some s => s.stalls.getD 0
  | none => 0

/-- One output row of an aggregation sheet: Range_Cover, region ID, count of
distinct sites, the three category columns, summed stalls. -/
structure AggRow where
  rangeCover : Int
  region : String
  nSites : Nat
  siteType : Option String
  segment : Option String
  party : Option String
  totalStalls : ℚ
deriving DecidableEq

/-- Steps 2 to 5 shared verbatim by the three aggregation builders: merge the
pairs with the site metadata, group by (region, Site-Type, Customer
Segment, Interested Party) with dropna=False, and aggregate the count of
distinct Index_ID and the sum of #_Stalls_Filled; one output row per
distinct key, carrying the buffer radius as Range_Cover. -/
def aggregateGroups (buffer : Int) (prs : List RegionPair) (sites : List SiteRec) :
    List AggRow :=
  (dedupBy (fun k : AggKey => k) (prs.map (keyOfPair sites))).map (fun k =>
    { rangeCover := buffer, region := k.region,
      nSites := (((prs.filter (fun p => keyOfPair sites p = k)).map
          RegionPair.siteId).dedup).length,
      siteType := k.siteType, segment := k.segment, party := k.party,
      totalStalls := ((prs.filter (fun p => keyOfPair sites p = k)).map
          (stallsOfPair sites)).sum })

/-- Embedding of _build_tract_agg_for_buffer. -/
def _build_tract_agg_for_buffer (buffer : Int) (inter : List InterRow)
    (sites : List SiteRec) : List AggRow :=
  aggregateGroups buffer (pairsForBuffer buffer inter) sites

/-- Embedding of _build_county_agg_for_buffer. -/
def _build_county_agg_for_buffer (buffer : Int) (inter : List InterRow)
    (sites : List SiteRec) : List AggRow :=
  aggregateGroups buffer (countyPairs buffer inter) sites

/-- Embedding of _build_msa_agg_for_buffer. -/
def _build_msa_agg_for_buffer (buffer : Int) (inter : List InterRow)
    (sites : List SiteRec) (msaMap : List MsaMapRow) : List AggRow :=
  aggregateGroups buffer (msaPairs buffer inter msaMap) sites

/-- Number of distinct sites nationally whose Site-Type, Customer Segment
and Interested Party match a given filter (the measure of the aggregation
invariant). -/
def natMatching (sites : List SiteRec) (t sg pa : Option String) : Nat :=
  (((sites.filter (fun s => s.siteType = t ∧ s.segment = sg ∧ s.party = pa)).map
      SiteRec.id).dedup).length

/-- Number of unique sites interacting with a region among a pair list (the
bound of the per-region sum invariant). -/
def regionSiteCount (prs : List RegionPair) (reg : String) : Nat :=
  (((prs.filter (fun p => p.region = reg)).map RegionPair.siteId).dedup).length

/-! ### geofence_etl.py -/

/-- The fixed dictionary of known vendor tokens (KNOWN_PARTIES). -/
def KNOWN_PARTIES : List (String × String) :=
  [("uber", "Uber"), ("waymo", "Waymo"), ("zoox", "Zoox"), ("moove", "Moove")]

/-- Whether the first list starts with the second. -/
def seqStartsWith : List Char → List Char → Bool
  | _, [] => true
  | [], _ :: _ => false
  | a :: as, b :: bs => a = b && seqStartsWith as bs

/-- Model of the Python substring test needle in hay. -/
def seqContains (hay needle : List Char) : Bool :=
  match hay with
  | [] => needle.isEmpty
  | _ :: t => seqStartsWith hay needle || seqContains t needle

/-- ASCII upper-case letter test. -/
def isUpperAZ (c : Char) : Bool := decide ('A' ≤ c) && decide (c ≤ 'Z')

/-- ASCII letter-or-digit test, the character class of the fallback pattern. -/
def isAlnumAscii (c : Char) : Bool :=
  (decide ('A' ≤ c) && decide (c ≤ 'Z')) || (decide ('a' ≤ c) && decide (c ≤ 'z')) ||
    (decide ('0' ≤ c) && decide (c ≤ '9'))

/-- First match of the fallback pattern (a capital letter followed by at
least one more letter or digit), scanning left to right with maximal
munch, as re.findall produces it. -/
def firstCapsToken : List Char → Option String
  | [] => none
  | c :: rest =>
    if isUpperAZ c then
      match rest with
      | [] => none
      | d :: _ =>
        if isAlnumAscii d then some (String.mk (c :: rest.takeWhile isAlnumAscii))
        else firstCapsToken rest
    else firstCapsToken rest

/-- Embedding of infer_interested_party: known vendor token
(case-insensitive substring), else the first capitalized word of the
filename, else the literal Unknown. -/
def infer_interested_party (tableName : String) : String :=
  let name := strLower tableName
  match KNOWN_PARTIES.find? (fun kp => seqContains name.data kp.1.data) with
  | some kp => kp.2
  | none =>
    match firstCapsToken tableName.data with
    | some tok => tok
    | none => "Unknown"

/-- The .kml entries of a KMZ archive in the order z.namelist() yields them
(the archive's own entry order), as read_geofence_file filters them. -/
def kmz_kml_entries (namelist : List String) : List String :=
  namelist.filter (fun n => strEndsWith (strLower n) ".kml")

/-- The entry read_geofence_file reads from a KMZ: kml_names[0], the first
.kml entry of the archive listing (none models the no-.kml failure). -/
def kmz_selected_kml (namelist : List String) : Option String :=
  (kmz_kml_entries namelist).head?

/-- A tract row as the geofence overlay consumes it. -/
structure GTract where
  geoid : String
deriving DecidableEq

/-- One exploded geofence feature: normalized Name, source file Table_Name,
and an abstract geometry handle distinguishing the exploded parts. -/
structure GeoRow where
  name : String
  tableName : String
  geomId : Nat
deriving DecidableEq

/-- One row of the final geofence tract table. -/
structure GeoOut where
  tractGeoid : String
  siteType : String
  segment : String
  interestedParty : String
  rangeCover : Int
  countCustomerSites : Nat
  totalStalls : ℚ
  tableName : String
  name : String
  tractsPerTable : Nat
  tractsPerPolygon : Nat
deriving DecidableEq

/-- Embedding of the spatial-join and table-building core of run_geofence:
inner join of tracts against exploded geofences on the abstract intersects
predicate, fatal on zero joined rows, then one output row per joined pair
carrying the fixed synthetic attributes and the per-polygon and per-file
distinct-tract counts. -/
def run_geofence (I : GTract → GeoRow → Bool) (tracts : List GTract)
    (geofences : List GeoRow) : Except String (List GeoOut) :=
  let joined := tracts.flatMap (fun t =>
      (geofences.filter (fun g => I t g)).map (fun g => (t, g)))
  if joined.length = 0 then
    Except.error "[geofence_etl] Spatial join produced 0 rows."
  else
    Except.ok (joined.map (fun tg =>
      { tractGeoid := tg.1.geoid,
        siteType := "Customer Interest",
        segment := "AV",
        interestedParty := infer_interested_party tg.2.tableName,
        rangeCover := 0,
        countCustomerSites := 1,
        totalStalls := 75 / 2,
        tableName := tg.2.tableName,
        name := tg.2.name,
        tractsPerTable := (((joined.filter (fun uv =>
            uv.2.tableName = tg.2.tableName)).map (fun uv => uv.1.geoid)).dedup).length,
        tractsPerPolygon := (((joined.filter (fun uv =>
            uv.2.tableName = tg.2.tableName ∧ uv.2.name = tg.2.name)).map
              (fun uv => uv.1.geoid)).dedup).length }))

/-! ### Lemmas about keyed deduplication -/

theorem mem_of_mem_dedupBy {α κ : Type} [DecidableEq κ] (key : α → κ) (l : List α)
    (a : α) (h : a ∈ dedupBy key l) : a ∈ l := by
  induction l with
  | nil => simp [dedupBy] at h
  | cons b t ih =>
    simp only [dedupBy, List.mem_cons] at h ⊢
    rcases h with h | h
    · exact Or.inl h
    · exact Or.inr (ih (List.mem_of_mem_filter h))

theorem dedupBy_pairwise {α κ : Type} [DecidableEq κ] (key : α → κ) (l : List α) :
    (dedupBy key l).Pairwise fun a b => key a ≠ key b := by
  induction l with
  | nil => simp [dedupBy]
  | cons b t ih =>
    simp only [dedupBy]
    refine List.Pairwise.cons ?_ (ih.filter _)
    intro x hx
    have h2 : key x ≠ key b := by simpa using (List.mem_filter.1 hx).2
    exact fun h => h2 h.symm

theorem dedupBy_nodup {α κ : Type} [DecidableEq κ] (key : α → κ) (l : List α) :
    (dedupBy key l).Nodup :=
  (dedupBy_pairwise key l).imp fun h hab => h (congrArg key hab)

theorem exists_rep_dedupBy {α κ : Type} [DecidableEq κ] (key : α → κ) (l : List α)
    (a : α) (ha : a ∈ l) : ∃ b ∈ dedupBy key l, key b = key a := by
  induction l with
  | nil => simp at ha
  | cons c t ih =>
    rcases List.mem_cons.1 ha with hac | ha'
    · exact ⟨c, List.mem_cons_self _ _, by rw [hac]⟩
    · by_cases hk : key a = key c
      · exact ⟨c, List.mem_cons_self _ _, hk.symm⟩
      · obtain ⟨b, hb, hkb⟩ := ih ha'
        refine ⟨b, ?_, hkb⟩
        simp only [dedupBy, List.mem_cons]
        exact Or.inr (List.mem_filter.2 ⟨hb, by simp [hkb, hk]⟩)

theorem mem_dedupBy_iff_of_inj {α κ : Type} [DecidableEq κ] (key : α → κ) (l : List α)
    (hinj : ∀ a ∈ l, ∀ b ∈ l, key a = key b → a = b) (x : α) :
    x ∈ dedupBy key l ↔ x ∈ l := by
  constructor
  · exact mem_of_mem_dedupBy key l x
  · intro hx
    obtain ⟨b, hb, hkb⟩ := exists_rep_dedupBy key l x hx
    have hbx := hinj b (mem_of_mem_dedupBy key l b hb) x hx hkb
    exact hbx ▸ hb

theorem mem_dedupBy_id {α : Type} [DecidableEq α] (l : List α) (x : α) :
    x ∈ dedupBy (fun a => a) l ↔ x ∈ l :=
  mem_dedupBy_iff_of_inj _ l (fun _ _ _ _ h => h) x

theorem dedupBy_perm {α κ : Type} [DecidableEq κ] (key : α → κ) (l₁ l₂ : List α)
    (hinj : ∀ a ∈ l₁, ∀ b ∈ l₁, key a = key b → a = b)
    (hmem : ∀ x, x ∈ l₁ ↔ x ∈ l₂) :
    (dedupBy key l₁).Perm (dedupBy key l₂) := by
  have hinj2 : ∀ a ∈ l₂, ∀ b ∈ l₂, key a = key b → a = b := fun a ha b hb =>
    hinj a ((hmem a).2 ha) b ((hmem b).2 hb)
  refine (List.perm_ext_iff_of_nodup (dedupBy_nodup key l₁) (dedupBy_nodup key l₂)).2 ?_
  intro x
  rw [mem_dedupBy_iff_of_inj key l₁ hinj, mem_dedupBy_iff_of_inj key l₂ hinj2]
  exact hmem x

/-! ### Lemmas about the string helpers -/

theorem strLength_data (s : String) : s.length = s.data.length := rfl

theorem zfill_eq_self (w : Nat) (s : String) (h : w ≤ s.length) : zfill w s = s := by
  simp [zfill, h]

theorem zfill_length (w : Nat) (s : String) (h : s.length ≤ w) :
    (zfill w s).length = w := by
  by_cases hw : w ≤ s.length
  · rw [zfill_eq_self w s hw]; omega
  · unfold zfill
    rw [if_neg hw]
    rcases hd : s.data with _ | ⟨c, rest⟩
    · show (List.replicate w '0').length = w
      simp
    · have hlen : s.length = rest.length + 1 := by
        rw [strLength_data, hd, List.length_cons]
      show (if c = '+' ∨ c = '-' then
              String.mk (c :: (List.replicate (w - s.length) '0' ++ rest))
            else String.mk (List.replicate (w - s.length) '0' ++ (c :: rest))).length = w
      by_cases hc : c = '+' ∨ c = '-'
      · rw [if_pos hc]
        show (c :: (List.replicate (w - s.length) '0' ++ rest)).length = w
        simp only [List.length_cons, List.length_append, List.length_replicate]
        omega
      · rw [if_neg hc]
        show (List.replicate (w - s.length) '0' ++ (c :: rest)).length = w
        simp only [List.length_append, List.length_replicate, List.length_cons]
        omega

theorem strTake_length (s : String) (n : Nat) :
    (strTake s n).length = min n s.length := by
  show (s.data.take n).length = min n s.length
  rw [List.length_take]
  rfl

theorem msaCounty_length (g : String) (h : 5 ≤ g.length) : (msaCounty g).length = 5 := by
  unfold msaCounty
  have h1 : (strTake g 5).length = 5 := by rw [strTake_length]; omega
  rw [zfill_eq_self 5 _ (le_of_eq h1.symm), h1]

/-! ### Lemmas about pyRound -/

theorem pyRound_intCast (n : ℤ) : pyRound (n : ℚ) = n := by
  unfold pyRound
  rw [Int.floor_intCast]
  norm_num

theorem pyRound_natCast (n : ℕ) : pyRound (n : ℚ) = n := by
  have h := pyRound_intCast (n : ℤ)
  push_cast at h
  exact h

theorem pyRound_eps : pyRound (1 / 2000 : ℚ) = 0 := by
  unfold pyRound
  have hf : ⌊(1 / 2000 : ℚ)⌋ = 0 := by
    rw [Int.floor_eq_zero_iff]
    constructor <;> norm_num
  rw [hf]
  norm_num

theorem radii_labels : radii.map pyRound = [0, 1, 2, 3, 5, 25, 75, 100] := by
  have h1 : pyRound (1 : ℚ) = 1 := by
    rw [show (1 : ℚ) = ((1 : ℕ) : ℚ) by norm_num, pyRound_natCast]; norm_num
  have h2 : pyRound (2 : ℚ) = 2 := by
    rw [show (2 : ℚ) = ((2 : ℕ) : ℚ) by norm_num, pyRound_natCast]; norm_num
  have h3 : pyRound (3 : ℚ) = 3 := by
    rw [show (3 : ℚ) = ((3 : ℕ) : ℚ) by norm_num, pyRound_natCast]; norm_num
  have h5 : pyRound (5 : ℚ) = 5 := by
    rw [show (5 : ℚ) = ((5 : ℕ) : ℚ) by norm_num, pyRound_natCast]; norm_num
  have h25 : pyRound (25 : ℚ) = 25 := by
    rw [show (25 : ℚ) = ((25 : ℕ) : ℚ) by norm_num, pyRound_natCast]; norm_num
  have h75 : pyRound (75 : ℚ) = 75 := by
    rw [show (75 : ℚ) = ((75 : ℕ) : ℚ) by norm_num, pyRound_natCast]; norm_num
  have h100 : pyRound (100 : ℚ) = 100 := by
    rw [show (100 : ℚ) = ((100 : ℕ) : ℚ) by norm_num, pyRound_natCast]; norm_num
  simp only [radii, List.map_cons, List.map_nil]
  rw [pyRound_eps, h1, h2, h3, h5, h25, h75, h100]

/-! ### Lemmas about the buffer-intersection pass -/

theorem sjoin_mem (I : TractRec → SiteRow → ℚ → Bool) (tracts : List TractRec)
    (sites : List SiteRow) (m : ℚ) (t : TractRec) (s : SiteRow) :
    (t, s) ∈ sjoin_tracts_buffers I tracts sites m ↔
      t ∈ tracts ∧ s ∈ sites ∧ I t s m = true := by
  simp only [sjoin_tracts_buffers, List.mem_flatMap, List.mem_map, List.mem_filter]
  constructor
  · rintro ⟨a, ha, b, ⟨hb, hI⟩, heq⟩
    cases heq
    exact ⟨ha, hb, hI⟩
  · rintro ⟨ht, hs, hI⟩
    exact ⟨t, ht, s, ⟨hs, hI⟩, rfl⟩

/-- C1: for every radius pass of the buffer-intersection engine, the pair
table has no two rows with the same (tract ID, site ID) pair, and every
row's attached distinct-site count equals the number of unique site IDs
among the rows of the table sharing that row's (Cover_Range, Geoid) key. -/
theorem C1_unique_pairs_and_counts (I : TractRec → SiteRow → ℚ → Bool)
    (tracts : List TractRec) (sites : List SiteRow) (miles : ℚ) :
    ((intersect_pairs_with_count I tracts sites miles).Pairwise fun a b =>
        ¬(a.geoid = b.geoid ∧ a.siteId = b.siteId)) ∧
    (∀ row ∈ intersect_pairs_with_count I tracts sites miles,
        row.countTract =
          (((intersect_pairs_with_count I tracts sites miles).filter (fun r2 =>
              r2.coverRange = row.coverRange ∧ r2.geoid = row.geoid)).map
            IntRow.siteId).dedup.length) := by
  constructor
  · simp only [intersect_pairs_with_count, pairRows]
    rw [List.pairwise_map, List.pairwise_map]
    refine (dedupBy_pairwise _ _).imp ?_
    intro a b hk hcon
    apply hk
    show (a.1.geoid, a.2.siteId) = (b.1.geoid, b.2.siteId)
    have h1 : a.1.geoid = b.1.geoid := hcon.1
    have h2 : a.2.siteId = b.2.siteId := hcon.2
    rw [h1, h2]
  · intro row hrow
    simp only [intersect_pairs_with_count] at hrow ⊢
    obtain ⟨r0, _, hrw⟩ := List.mem_map.1 hrow
    rw [← hrw]
    rw [List.filter_map, List.map_map]
    rfl

/-- C5: the 0-mile tier is an epsilon-radius pass (all radii are strictly
positive, the first is 1/2000 mile, a true 0 radius is never used, the
buffer distance of the epsilon pass is positive), every row of a pass is
labeled with round(radius_miles), and the labels of the configured radii
are exactly [0, 1, 2, 3, 5, 25, 75, 100]. -/
theorem C5_epsilon_zero_tier :
    (∀ r ∈ radii, 0 < r) ∧
    radii.head? = some (1 / 2000) ∧
    (0 : ℚ) ∉ radii ∧
    0 < MI_TO_M * (1 / 2000) ∧
    (∀ (I : TractRec → SiteRow → ℚ → Bool) (tracts : List TractRec)
        (sites : List SiteRow) (miles : ℚ),
      ∀ row ∈ intersect_pairs_with_count I tracts sites miles,
        row.coverRange = pyRound miles) ∧
    radii.map pyRound = [0, 1, 2, 3, 5, 25, 75, 100] := by
  refine ⟨?_, rfl, ?_, ?_, ?_, radii_labels⟩
  · intro r hr
    simp only [radii, List.mem_cons, List.not_mem_nil, or_false] at hr
    rcases hr with rfl | rfl | rfl | rfl | rfl | rfl | rfl | rfl <;> norm_num
  · simp only [radii, List.mem_cons, List.not_mem_nil, or_false]
    push_neg
    norm_num
  · norm_num [MI_TO_M]
  · intro I tracts sites miles row hrow
    simp only [intersect_pairs_with_count, pairRows, List.map_map] at hrow
    obtain ⟨ts, _, hrw⟩ := List.mem_map.1 hrow
    rw [← hrw]
    rfl

/-- C6: the radius loop raises its fatal error exactly when the combined
output over all configured radii is empty; a single empty radius pass with
any other pass nonempty yields a normal (ok) result. -/
theorem C6_zero_pairs_fatal_iff_all_empty (I : TractRec → SiteRow → ℚ → Bool)
    (tracts : List TractRec) (sites : List SiteRow) :
    (∃ e, run_tract_site_interactions I tracts sites = Except.error e) ↔
      ∀ r ∈ radii, intersect_pairs_with_count I tracts sites r = [] := by
  simp only [run_tract_site_interactions]
  rw [show (radii.map fun r => intersect_pairs_with_count I tracts sites r).isEmpty
      = false from by simp [radii]]
  simp only [Bool.false_eq_true, if_false]
  by_cases h :
      (radii.map fun r => intersect_pairs_with_count I tracts sites r).flatten.length = 0
  · rw [if_pos h]
    constructor
    · intro _
      have hl : (radii.map fun r => intersect_pairs_with_count I tracts sites r).flatten
          = [] := List.length_eq_zero.1 h
      intro r hr
      exact List.flatten_eq_nil_iff.1 hl _ (List.mem_map_of_mem _ hr)
    · intro _
      exact ⟨_, rfl⟩
  · rw [if_neg h]
    constructor
    · rintro ⟨e, he⟩
      exact absurd he (by simp)
    · intro hall
      exfalso
      apply h
      have hnil : (radii.map fun r => intersect_pairs_with_count I tracts sites r).flatten
          = [] := by
        apply List.flatten_eq_nil_iff.2
        intro l hl
        obtain ⟨r, hr, hrl⟩ := List.mem_map.1 hl
        rw [← hrl]
        exact hall r hr
      rw [hnil]
      rfl

/-- C9: the pair computation is deterministic and order-independent: on
inputs that are permutations of each other (with the tract layer's GEOIDs
unique), the produced row tables are permutations of each other, so the
row sets coincide. -/
theorem C9_pass_order_independent (I : TractRec → SiteRow → ℚ → Bool)
    (tracts₁ tracts₂ : List TractRec) (sites₁ sites₂ : List SiteRow) (miles : ℚ)
    (ht : tracts₁.Perm tracts₂) (hs : sites₁.Perm sites₂)
    (hnd : (tracts₁.map TractRec.geoid).Nodup) :
    (intersect_pairs_with_count I tracts₁ sites₁ miles).Perm
      (intersect_pairs_with_count I tracts₂ sites₂ miles) := by
  have hinj : ∀ a ∈ sjoin_tracts_buffers I tracts₁ sites₁ (MI_TO_M * miles),
      ∀ b ∈ sjoin_tracts_buffers I tracts₁ sites₁ (MI_TO_M * miles),
      (a.1.geoid, a.2.siteId) = (b.1.geoid, b.2.siteId) → a = b := by
    rintro ⟨t1, s1⟩ ha ⟨t2, s2⟩ hb hk
    have h1 := (sjoin_mem I tracts₁ sites₁ _ t1 s1).1 ha
    have h2 := (sjoin_mem I tracts₁ sites₁ _ t2 s2).1 hb
    have hg : t1.geoid = t2.geoid := congrArg Prod.fst hk
    have hsid : s1.siteId = s2.siteId := congrArg Prod.snd hk
    have ht12 : t1 = t2 := List.inj_on_of_nodup_map hnd h1.1 h2.1 hg
    have hs12 : s1 = s2 := by cases s1; cases s2; simpa using hsid
    rw [ht12, hs12]
  have hmem : ∀ x, x ∈ sjoin_tracts_buffers I tracts₁ sites₁ (MI_TO_M * miles) ↔
      x ∈ sjoin_tracts_buffers I tracts₂ sites₂ (MI_TO_M * miles) := by
    rintro ⟨t, s⟩
    rw [sjoin_mem, sjoin_mem, ht.mem_iff, hs.mem_iff]
  have hdd := dedupBy_perm (fun ts : TractRec × SiteRow => (ts.1.geoid, ts.2.siteId))
      _ _ hinj hmem
  have hpr : (pairRows I tracts₁ sites₁ miles).Perm (pairRows I tracts₂ sites₂ miles) := by
    unfold pairRows
    exact hdd.map _
  have hcnt : ∀ c g, countFor (pairRows I tracts₁ sites₁ miles) c g
      = countFor (pairRows I tracts₂ sites₂ miles) c g := by
    intro c g
    unfold countFor
    exact (((hpr.filter _).map _).dedup).length_eq
  simp only [intersect_pairs_with_count]
  have hat : attachCount (pairRows I tracts₁ sites₁ miles)
      = attachCount (pairRows I tracts₂ sites₂ miles) := by
    funext r
    unfold attachCount
    rw [hcnt]
  rw [hat]
  exact hpr.map _

/-- Witness for C9 at a concrete input: swapping the two tract rows leaves
the pair table a permutation of the original. -/
theorem C9_witness :
    (intersect_pairs_with_count (fun _ _ _ => true)
        [{ geoid := "A", geomType := "Polygon" }, { geoid := "B", geomType := "Polygon" }]
        [{ siteId := "s" }] 1).Perm
      (intersect_pairs_with_count (fun _ _ _ => true)
        [{ geoid := "B", geomType := "Polygon" }, { geoid := "A", geomType := "Polygon" }]
        [{ siteId := "s" }] 1) :=
  C9_pass_order_independent _ _ _ _ _ 1 (by decide) (by decide) (by decide)

/-! ### Lemmas about the aggregation builders -/

theorem keyOfPair_region (sites : List SiteRec) (p : RegionPair) :
    (keyOfPair sites p).region = p.region := by
  cases h : siteLookup sites p.siteId <;> simp [keyOfPair, h]

theorem keyOfPair_congr (sites : List SiteRec) (p q : RegionPair)
    (h1 : p.siteId = q.siteId) (h2 : p.region = q.region) :
    keyOfPair sites p = keyOfPair sites q := by
  unfold keyOfPair
  rw [h1, h2]

theorem pairsForBuffer_source (buffer : Int) (inter : List InterRow) :
    ∀ p ∈ pairsForBuffer buffer inter, ∃ r ∈ inter,
      r.coverRange = buffer ∧ p.region = zfill 11 r.geoid ∧ p.siteId = r.siteId := by
  intro p hp
  have hp2 := mem_of_mem_dedupBy _ _ _ hp
  obtain ⟨r, hr, hrp⟩ := List.mem_map.1 hp2
  have hrf := List.mem_filter.1 hr
  exact ⟨r, hrf.1, by simpa using hrf.2, by rw [← hrp], by rw [← hrp]⟩

theorem countyPairs_source (buffer : Int) (inter : List InterRow) :
    ∀ p ∈ countyPairs buffer inter, ∃ q ∈ pairsForBuffer buffer inter,
      p.region = strTake q.region 5 ∧ p.siteId = q.siteId := by
  intro p hp
  have hp2 := mem_of_mem_dedupBy _ _ _ hp
  obtain ⟨q, hq, hqp⟩ := List.mem_map.1 hp2
  exact ⟨q, hq, by rw [← hqp], by rw [← hqp]⟩

theorem msaPairs_source (buffer : Int) (inter : List InterRow) (msaMap : List MsaMapRow) :
    ∀ p ∈ msaPairs buffer inter msaMap, ∃ q ∈ pairsForBuffer buffer inter,
      ∃ m ∈ msaMap, m.county = msaCounty q.region ∧ p.region = m.msa ∧
        p.siteId = q.siteId := by
  intro p hp
  have hp2 := mem_of_mem_dedupBy _ _ _ hp
  obtain ⟨q, hq, hpq⟩ := List.mem_flatMap.1 hp2
  obtain ⟨m, hm, hmp⟩ := List.mem_map.1 hpq
  have hmf := List.mem_filter.1 hm
  exact ⟨q, hq, m, hmf.1, by simpa using hmf.2, by rw [← hmp], by rw [← hmp]⟩

theorem aggregateGroups_region_source (buffer : Int) (prs : List RegionPair)
    (sites : List SiteRec) :
    ∀ row ∈ aggregateGroups buffer prs sites, ∃ p ∈ prs, row.region = p.region := by
  intro row hrow
  simp only [aggregateGroups] at hrow
  obtain ⟨k, hk, hrw⟩ := List.mem_map.1 hrow
  rw [mem_dedupBy_id] at hk
  obtain ⟨p, hp, hpk⟩ := List.mem_map.1 hk
  refine ⟨p, hp, ?_⟩
  rw [← hrw]
  show k.region = p.region
  rw [← hpk, keyOfPair_region]

theorem aggregateGroups_nSites_le (buffer : Int) (prs : List RegionPair)
    (sites : List SiteRec)
    (hC : ∀ p ∈ prs, ∃ s ∈ sites, s.id = p.siteId) :
    ∀ row ∈ aggregateGroups buffer prs sites,
      row.nSites ≤ natMatching sites row.siteType row.segment row.party := by
  intro row hrow
  simp only [aggregateGroups] at hrow
  obtain ⟨k, hk, hrw⟩ := List.mem_map.1 hrow
  rw [← hrw]
  show (((prs.filter fun p => keyOfPair sites p = k).map RegionPair.siteId).dedup).length
      ≤ natMatching sites k.siteType k.segment k.party
  unfold natMatching
  rw [← List.card_toFinset, ← List.card_toFinset]
  apply Finset.card_le_card
  intro x hx
  rw [List.mem_toFinset] at hx ⊢
  obtain ⟨p, hp, hpx⟩ := List.mem_map.1 hx
  have hpm := List.mem_filter.1 hp
  have hkey : keyOfPair sites p = k := by simpa using hpm.2
  obtain ⟨s0, hs0, hs0id⟩ := hC p hpm.1
  have hsome : (sites.find? fun s => s.id = p.siteId).isSome = true := by
    rw [List.find?_isSome]
    exact ⟨s0, hs0, by simp [hs0id]⟩
  obtain ⟨srec, hrec⟩ := Option.isSome_iff_exists.1 hsome
  have hrecmem : srec ∈ sites := List.mem_of_find?_eq_some hrec
  have hrecid : srec.id = p.siteId := by
    have hps := List.find?_some hrec
    simpa using hps
  have hkm : AggKey.mk p.region srec.siteType srec.segment srec.party = k := by
    rw [← hkey]
    unfold keyOfPair siteLookup
    rw [hrec]
  apply List.mem_map.2
  refine ⟨srec, ?_, by rw [hrecid, hpx]⟩
  apply List.mem_filter.2
  refine ⟨hrecmem, ?_⟩
  have h1 : srec.siteType = k.siteType := by rw [← hkm]
  have h2 : srec.segment = k.segment := by rw [← hkm]
  have h3 : srec.party = k.party := by rw [← hkm]
  simp [h1, h2, h3]

theorem aggregateGroups_region_sum (buffer : Int) (prs : List RegionPair)
    (sites : List SiteRec) (reg : String) :
    (((aggregateGroups buffer prs sites).filter fun row => row.region = reg).map
        AggRow.nSites).sum = regionSiteCount prs reg := by
  classical
  simp only [aggregateGroups]
  rw [List.filter_map, List.map_map]
  show (((dedupBy (fun k : AggKey => k) (prs.map (keyOfPair sites))).filter
      (fun k => k.region = reg)).map
      (fun k => (((prs.filter fun p => keyOfPair sites p = k).map
        RegionPair.siteId).dedup).length)).sum = regionSiteCount prs reg
  unfold regionSiteCount
  rw [← List.card_toFinset]
  simp only [← List.card_toFinset]
  have hKrnd : ((dedupBy (fun k : AggKey => k) (prs.map (keyOfPair sites))).filter
      (fun k => k.region = reg)).Nodup := (dedupBy_nodup _ _).filter _
  rw [← List.sum_toFinset _ hKrnd]
  have hdisj : ∀ k1 ∈ ((dedupBy (fun k : AggKey => k)
        (prs.map (keyOfPair sites))).filter (fun k => k.region = reg)).toFinset,
      ∀ k2 ∈ ((dedupBy (fun k : AggKey => k)
        (prs.map (keyOfPair sites))).filter (fun k => k.region = reg)).toFinset,
      k1 ≠ k2 → Disjoint
        (((prs.filter fun p => keyOfPair sites p = k1).map RegionPair.siteId).toFinset)
        (((prs.filter fun p => keyOfPair sites p = k2).map RegionPair.siteId).toFinset) := by
    intro k1 h1 k2 h2 hne
    rw [Finset.disjoint_left]
    intro x hx1 hx2
    rw [List.mem_toFinset] at hx1 hx2
    obtain ⟨p1, hp1, hpx1⟩ := List.mem_map.1 hx1
    obtain ⟨p2, hp2, hpx2⟩ := List.mem_map.1 hx2
    have hm1 := List.mem_filter.1 hp1
    have hm2 := List.mem_filter.1 hp2
    have hk1 : keyOfPair sites p1 = k1 := by simpa using hm1.2
    have hk2 : keyOfPair sites p2 = k2 := by simpa using hm2.2
    rw [List.mem_toFinset] at h1 h2
    have hr1 : k1.region = reg := by simpa using (List.mem_filter.1 h1).2
    have hr2 : k2.region = reg := by simpa using (List.mem_filter.1 h2).2
    apply hne
    rw [← hk1, ← hk2]
    apply keyOfPair_congr
    · rw [hpx1, hpx2]
    · have e1 : p1.region = k1.region := by rw [← hk1, keyOfPair_region]
      have e2 : p2.region = k2.region := by rw [← hk2, keyOfPair_region]
      rw [e1, e2, hr1, hr2]
  rw [← Finset.card_biUnion hdisj]
  apply congrArg Finset.card
  apply Finset.ext
  intro x
  rw [Finset.mem_biUnion, List.mem_toFinset]
  constructor
  · rintro ⟨k, hk, hx⟩
    rw [List.mem_toFinset] at hk hx
    obtain ⟨p, hp, hpx⟩ := List.mem_map.1 hx
    have hm := List.mem_filter.1 hp
    have hkey : keyOfPair sites p = k := by simpa using hm.2
    have hkr : k.region = reg := by simpa using (List.mem_filter.1 hk).2
    have hreg : p.region = reg := by
      have e : p.region = k.region := by rw [← hkey, keyOfPair_region]
      rw [e, hkr]
    apply List.mem_map.2
    exact ⟨p, List.mem_filter.2 ⟨hm.1, by simp [hreg]⟩, hpx⟩
  · intro hx
    obtain ⟨p, hp, hpx⟩ := List.mem_map.1 hx
    have hm := List.mem_filter.1 hp
    have hreg : p.region = reg := by simpa using hm.2
    refine ⟨keyOfPair sites p, ?_, ?_⟩
    · rw [List.mem_toFinset]
      apply List.mem_filter.2
      constructor
      · rw [mem_dedupBy_id]
        exact List.mem_map_of_mem _ hm.1
      · simp [keyOfPair_region, hreg]
    · rw [List.mem_toFinset]
      apply List.mem_map.2
      exact ⟨p, List.mem_filter.2 ⟨hm.1, by simp⟩, hpx⟩

/-- C2: at every aggregation level the distinct-site count of a group is at
most the number of distinct sites nationally matching that group's
site-type, segment and sponsor filter (assuming every interaction site ID
has a metadata row), and for a fixed (radius, region) the sum of
distinct-site counts over all category combinations does not exceed the
number of unique sites interacting with that region at that radius. -/
theorem C2_aggregation_bounds (buffer : Int) (inter : List InterRow)
    (sites : List SiteRec) (msaMap : List MsaMapRow)
    (hC : ∀ r ∈ inter, ∃ s ∈ sites, s.id = r.siteId) :
    (∀ row ∈ _build_tract_agg_for_buffer buffer inter sites,
        row.nSites ≤ natMatching sites row.siteType row.segment row.party) ∧
    (∀ row ∈ _build_county_agg_for_buffer buffer inter sites,
        row.nSites ≤ natMatching sites row.siteType row.segment row.party) ∧
    (∀ row ∈ _build_msa_agg_for_buffer buffer inter sites msaMap,
        row.nSites ≤ natMatching sites row.siteType row.segment row.party) ∧
    (∀ reg, (((_build_tract_agg_for_buffer buffer inter sites).filter
        (fun row => row.region = reg)).map AggRow.nSites).sum
        ≤ regionSiteCount (pairsForBuffer buffer inter) reg) ∧
    (∀ reg, (((_build_county_agg_for_buffer buffer inter sites).filter
        (fun row => row.region = reg)).map AggRow.nSites).sum
        ≤ regionSiteCount (countyPairs buffer inter) reg) ∧
    (∀ reg, (((_build_msa_agg_for_buffer buffer inter sites msaMap).filter
        (fun row => row.region = reg)).map AggRow.nSites).sum
        ≤ regionSiteCount (msaPairs buffer inter msaMap) reg) := by
  have hC1 : ∀ p ∈ pairsForBuffer buffer inter, ∃ s ∈ sites, s.id = p.siteId := by
    intro p hp
    obtain ⟨r, hr, _, _, hsid⟩ := pairsForBuffer_source buffer inter p hp
    obtain ⟨s, hs, hsid2⟩ := hC r hr
    exact ⟨s, hs, by rw [hsid, hsid2]⟩
  have hC2 : ∀ p ∈ countyPairs buffer inter, ∃ s ∈ sites, s.id = p.siteId := by
    intro p hp
    obtain ⟨q, hq, _, hsid⟩ := countyPairs_source buffer inter p hp
    obtain ⟨s, hs, hsid2⟩ := hC1 q hq
    exact ⟨s, hs, by rw [hsid, hsid2]⟩
  have hC3 : ∀ p ∈ msaPairs buffer inter msaMap, ∃ s ∈ sites, s.id = p.siteId := by
    intro p hp
    obtain ⟨q, hq, _, _, _, _, hsid⟩ := msaPairs_source buffer inter msaMap p hp
    obtain ⟨s, hs, hsid2⟩ := hC1 q hq
    exact ⟨s, hs, by rw [hsid, hsid2]⟩
  exact ⟨aggregateGroups_nSites_le buffer _ sites hC1,
    aggregateGroups_nSites_le buffer _ sites hC2,
    aggregateGroups_nSites_le buffer _ sites hC3,
    fun reg => le_of_eq (aggregateGroups_region_sum buffer _ sites reg),
    fun reg => le_of_eq (aggregateGroups_region_sum buffer _ sites reg),
    fun reg => le_of_eq (aggregateGroups_region_sum buffer _ sites reg)⟩

/-- Witness for C2 at a concrete input: one interaction row, one site, one
region; the per-region sum of distinct-site counts at the tract level is
bounded by the distinct interacting sites of that tract. -/
theorem C2_witness :
    (((_build_tract_agg_for_buffer 5
        [{ coverRange := 5, geoid := "06001400100", siteId := "1" }]
        [{ id := "1", siteType := some "T", segment := some "AV",
           party := some "U", stalls := none }]).filter
        (fun row => row.region = "06001400100")).map AggRow.nSites).sum
      ≤ regionSiteCount (pairsForBuffer 5
        [{ coverRange := 5, geoid := "06001400100", siteId := "1" }]) "06001400100" :=
  (C2_aggregation_bounds 5
    [{ coverRange := 5, geoid := "06001400100", siteId := "1" }]
    [{ id := "1", siteType := some "T", segment := some "AV",
       party := some "U", stalls := none }] [] (by decide)).2.2.2.1 "06001400100"

/-- C3: the county ID used by the county-level aggregation is the first 5
characters of the (normalized) tract ID, and for an 11-character tract ID
the MSA path's re-padded county key is that same 5-character truncation;
no lookup table enters the derivation. -/
theorem C3_county_truncation (buffer : Int) (inter : List InterRow)
    (h11 : ∀ r ∈ inter, r.geoid.length = 11) :
    (∀ p ∈ countyPairs buffer inter, ∃ r ∈ inter, p.region = strTake r.geoid 5) ∧
    (∀ r ∈ inter, msaCounty (zfill 11 r.geoid) = strTake r.geoid 5) := by
  have hz : ∀ r ∈ inter, zfill 11 r.geoid = r.geoid := fun r hr =>
    zfill_eq_self 11 r.geoid (le_of_eq (h11 r hr).symm)
  constructor
  · intro p hp
    obtain ⟨q, hq, hreg, _⟩ := countyPairs_source buffer inter p hp
    obtain ⟨r, hr, _, hqreg, _⟩ := pairsForBuffer_source buffer inter q hq
    exact ⟨r, hr, by rw [hreg, hqreg, hz r hr]⟩
  · intro r hr
    rw [hz r hr]
    unfold msaCounty
    apply zfill_eq_self
    rw [strTake_length, h11 r hr]
    omega

/-- Witness for C3 at a concrete input: the county key of the tract
06001400100 is 06001 on both the county and the MSA path. -/
theorem C3_witness :
    msaCounty (zfill 11 "06001400100") = strTake "06001400100" 5 :=
  (C3_county_truncation 5 [{ coverRange := 5, geoid := "06001400100", siteId := "1" }]
    (by decide)).2 { coverRange := 5, geoid := "06001400100", siteId := "1" } (by decide)

/-- C4: every MSA-level output row carries an MSA name present in the
county-to-MSA map, every MSA pair stems from a tract pair whose county key
is present in the map, and when no county of the pairs is mapped the MSA
output is empty (a value of the total function, not an error). -/
theorem C4_unmapped_counties_excluded (buffer : Int) (inter : List InterRow)
    (sites : List SiteRec) (msaMap : List MsaMapRow) :
    (∀ row ∈ _build_msa_agg_for_buffer buffer inter sites msaMap,
        ∃ m ∈ msaMap, row.region = m.msa) ∧
    (∀ p ∈ msaPairs buffer inter msaMap, ∃ q ∈ pairsForBuffer buffer inter,
        ∃ m ∈ msaMap, m.county = msaCounty q.region ∧ p.region = m.msa ∧
          p.siteId = q.siteId) ∧
    ((∀ q ∈ pairsForBuffer buffer inter, ∀ m ∈ msaMap, m.county ≠ msaCounty q.region) →
        _build_msa_agg_for_buffer buffer inter sites msaMap = []) := by
  refine ⟨?_, msaPairs_source buffer inter msaMap, ?_⟩
  · intro row hrow
    obtain ⟨p, hp, hreg⟩ := aggregateGroups_region_source buffer _ sites row hrow
    obtain ⟨q, hq, m, hm, _, hpm, _⟩ := msaPairs_source buffer inter msaMap p hp
    exact ⟨m, hm, by rw [hreg, hpm]⟩
  · intro hnone
    have hmp : msaPairs buffer inter msaMap = [] := by
      unfold msaPairs
      have hfm : (pairsForBuffer buffer inter).flatMap (fun p =>
          (msaMap.filter (fun m => m.county = msaCounty p.region)).map
            (fun m => ({ region := m.msa, siteId := p.siteId } : RegionPair))) = [] := by
        apply List.flatMap_eq_nil_iff.2
        intro q hq
        rw [List.map_eq_nil_iff, List.filter_eq_nil_iff]
        intro m hm
        simp only [decide_eq_true_eq]
        exact hnone q hq m hm
      rw [hfm]
      rfl
    show aggregateGroups buffer (msaPairs buffer inter msaMap) sites = []
    rw [hmp]
    rfl

/-- C10: with input GEOIDs of at most 11 characters (for example numerically
stored GEOIDs with stripped leading zeros), every tract-level region ID has
exactly 11 characters, every county-level region ID has exactly 5, and the
MSA path's county key has exactly 5. -/
theorem C10_geoid_normalization (buffer : Int) (inter : List InterRow)
    (sites : List SiteRec) (hle : ∀ r ∈ inter, r.geoid.length ≤ 11) :
    (∀ p ∈ pairsForBuffer buffer inter, p.region.length = 11) ∧
    (∀ row ∈ _build_tract_agg_for_buffer buffer inter sites, row.region.length = 11) ∧
    (∀ p ∈ countyPairs buffer inter, p.region.length = 5) ∧
    (∀ row ∈ _build_county_agg_for_buffer buffer inter sites, row.region.length = 5) ∧
    (∀ g : String, g.length ≤ 11 → (msaCounty (zfill 11 g)).length = 5) := by
  have h1 : ∀ p ∈ pairsForBuffer buffer inter, p.region.length = 11 := by
    intro p hp
    obtain ⟨r, hr, _, hreg, _⟩ := pairsForBuffer_source buffer inter p hp
    rw [hreg]
    exact zfill_length 11 r.geoid (hle r hr)
  have h3 : ∀ p ∈ countyPairs buffer inter, p.region.length = 5 := by
    intro p hp
    obtain ⟨q, hq, hreg, _⟩ := countyPairs_source buffer inter p hp
    rw [hreg, strTake_length, h1 q hq]
    omega
  refine ⟨h1, ?_, h3, ?_, ?_⟩
  · intro row hrow
    obtain ⟨p, hp, hreg⟩ := aggregateGroups_region_source buffer _ sites row hrow
    rw [hreg]
    exact h1 p hp
  · intro row hrow
    obtain ⟨p, hp, hreg⟩ := aggregateGroups_region_source buffer _ sites row hrow
    rw [hreg]
    exact h3 p hp
  · intro g hg
    apply msaCounty_length
    rw [zfill_length 11 g hg]
    omega

/-- Witness for C10 at a concrete input: a 10-character numeric GEOID is
re-padded to a 5-character county key on the MSA path. -/
theorem C10_witness : (msaCounty (zfill 11 "6001400100")).length = 5 :=
  (C10_geoid_normalization 5 [{ coverRange := 5, geoid := "6001400100", siteId := "1" }]
    [] (by decide)).2.2.2.2 "6001400100" (by decide)

/-! ### Lemmas about the geofence overlay -/

theorem flatMap_single_geofence (I : GTract → GeoRow → Bool) (tracts : List GTract)
    (g : GeoRow) :
    tracts.flatMap (fun t => ([g].filter (fun x => I t x)).map (fun x => (t, x)))
      = (tracts.filter (fun t => I t g)).map (fun t => (t, g)) := by
  induction tracts with
  | nil => rfl
  | cons t ts ih =>
    rw [List.flatMap_cons, ih, List.filter_cons]
    cases h : I t g <;> simp [List.filter_cons, h]

/-- C7: every row of the geofence overlay output carries the fixed synthetic
attributes (site-type Customer Interest, segment AV, coverage range 0,
distinct-site contribution 1, nominal stall capacity 37.5); and a geofence
intersecting exactly one tract yields exactly one such row for that tract. -/
theorem C7_geofence_fixed_attributes (I : GTract → GeoRow → Bool)
    (tracts : List GTract) (geofences : List GeoRow) :
    (∀ out, run_geofence I tracts geofences = Except.ok out →
        ∀ row ∈ out, row.siteType = "Customer Interest" ∧ row.segment = "AV" ∧
          row.rangeCover = 0 ∧ row.countCustomerSites = 1 ∧
          row.totalStalls = 75 / 2) ∧
    (∀ g t, tracts.filter (fun u => I u g) = [t] →
        run_geofence I tracts [g] = Except.ok
          [{ tractGeoid := t.geoid, siteType := "Customer Interest", segment := "AV",
             interestedParty := infer_interested_party g.tableName, rangeCover := 0,
             countCustomerSites := 1, totalStalls := 75 / 2, tableName := g.tableName,
             name := g.name, tractsPerTable := 1, tractsPerPolygon := 1 }]) := by
  constructor
  · intro out hout row hrow
    simp only [run_geofence] at hout
    by_cases h : (tracts.flatMap (fun t => (geofences.filter (fun g => I t g)).map
        (fun g => (t, g)))).length = 0
    · rw [if_pos h] at hout
      exact absurd hout (by simp)
    · rw [if_neg h] at hout
      injection hout with h2
      rw [← h2] at hrow
      obtain ⟨tg, _, hrw⟩ := List.mem_map.1 hrow
      rw [← hrw]
      exact ⟨rfl, rfl, rfl, rfl, rfl⟩
  · intro g t hft
    simp only [run_geofence]
    rw [flatMap_single_geofence I tracts g, hft]
    rw [if_neg (by simp)]
    simp [List.filter_cons]

/-! ### The KMZ entry selection -/

/-- C8 counterexample: with archive entries ["b.kml", "a.kml"] the loader
picks "b.kml", the first entry in archive order, although "a.kml" is the
lexically first .kml entry. -/
theorem C8_counterexample :
    kmz_selected_kml ["b.kml", "a.kml"] = some "b.kml" ∧
    "a.kml" ∈ kmz_kml_entries ["b.kml", "a.kml"] ∧
    lexLT "a.kml".data "b.kml".data = true ∧
    "b.kml" ≠ "a.kml" := by decide

/-- C8 (amended): the loader picks the first .kml entry in the order the
archive lists its entries (not lexical order); in particular with exactly
one .kml entry it reads that entry. -/
theorem C8_amended_first_in_archive_order (namelist : List String) (x : String)
    (rest : List String) (h : kmz_kml_entries namelist = x :: rest) :
    kmz_selected_kml namelist = some x ∧ x ∈ namelist ∧
      strEndsWith (strLower x) ".kml" = true := by
  have hx : x ∈ kmz_kml_entries namelist := by
    rw [h]
    exact List.mem_cons_self _ _
  refine ⟨?_, List.mem_of_mem_filter hx, (List.mem_filter.1 hx).2⟩
  unfold kmz_selected_kml
  rw [h]
  rfl

/-- Witness for the amended C8 at a concrete input: among the entries
["zone.txt", "B.KML", "a.kml"], the first .kml entry in archive order is
"B.KML" and it is selected. -/
theorem C8_witness :
    kmz_selected_kml ["zone.txt", "B.KML", "a.kml"] = some "B.KML" ∧
      "B.KML" ∈ ["zone.txt", "B.KML", "a.kml"] ∧
      strEndsWith (strLower "B.KML") ".kml" = true :=
  C8_amended_first_in_archive_order ["zone.txt", "B.KML", "a.kml"] "B.KML" ["a.kml"]
    (by decide)

end Voltera
